import Mathlib

/-!
Shallow embedding of `eb-appver-creator.py`, a tool that zips the working
directory (honouring `.ebignore`/`.gitignore`), uploads the archive to S3
under the key `{application}/{label}.zip`, and registers it as an Elastic
Beanstalk application version.

The filesystem is modelled as a tree of named entries; AWS calls are
modelled by passing the response of each call in as data (`Except AwsError _`)
and recording every outgoing request and log line as an `Effect`.
-/

namespace EbAppver

mutual
/-- A directory tree node: what `os.scandir` sees under a directory. -/
inductive FsEntry where
  | file (name : String)
  | dir (name : String) (children : FsList)
  deriving DecidableEq

/-- The listing of one directory, in the order `os.scandir` yields entries. -/
inductive FsList where
  | nil
  | cons (e : FsEntry) (rest : FsList)
  deriving DecidableEq
end

mutual
/-- Embeds `_scantree(path)`: recursively yield (the `entry.path` of) all
non-directory entries under `path`.  The `entry.path` of an entry named `n`
listed under `path` is `path ++ "/" ++ n` (as `os.scandir` joins them for
a `path` not ending in a slash). -/
def scantree (path : String) : FsList → List String
  | .nil => []
  | .cons e rest => scanEntry path e ++ scantree path rest

/-- One iteration of the `_scantree` loop: a directory entry is recursed
into, any other entry is yielded. -/
def scanEntry (path : String) : FsEntry → List String
  | .file n => [path ++ "/" ++ n]
  | .dir n cs => scantree (path ++ "/" ++ n) cs
end

mutual
/-- The regular files of a directory listing, as paths relative to the tree
root (directories contribute no entry of their own). -/
def filesOfList : FsList → List String
  | .nil => []
  | .cons e rest => filesOfEntry e ++ filesOfList rest

/-- The regular files contributed by a single tree node. -/
def filesOfEntry : FsEntry → List String
  | .file n => [n]
  | .dir n cs => (filesOfList cs).map (fun r => n ++ "/" ++ r)
end

/-- An exception escaping an AWS call: either a
`botocore.exceptions.ClientError` carrying the response error message, or
any other exception.  Only `ClientError` is caught by `create_appver`. -/
inductive AwsError where
  | clientError (msg : String)
  | nonClientError (msg : String)
  deriving DecidableEq

/-- An observable action of the program: a log record that passed the
configured level, or an outgoing request / archive construction. -/
inductive Effect where
  | log (level : Nat) (msg : String)
  | describeAppVersions (application label : String)
  | buildArchive (entries : List String)
  | uploadObject (bucket key : String)
  | createAppVersion (application label description bucket key : String)
  deriving DecidableEq

def LOG_DEBUG : Nat := 10
def LOG_INFO : Nat := 20
def LOG_WARNING : Nat := 30

/-- Emit a log record at level `lvl` when the configured level `cfg`
admits it (CPython logging emits records whose level is ≥ the configured
level). -/
def emitLog (cfg lvl : Nat) (msg : String) : List Effect :=
  if cfg ≤ lvl then [Effect.log lvl msg] else []

/-- A single-quote character, used inside log and error messages. -/
def sq : String := "\x27"

/-- The parsed command-line arguments. -/
structure Args where
  application : String
  label : String
  s3Bucket : String
  description : String
  debug : Bool
  existingAppverIsError : Bool

/-- The external world of one run: the response of each AWS call passed
in as data, plus the contents of the working directory.  `ebignore`/`gitignore` are
`some matcher` exactly when the corresponding file exists in the working
directory root, with `matcher` the predicate `gitignore_parser` builds
from it. -/
structure Env where
  describeCount : Except AwsError Nat
  uploadResp : Except AwsError Unit
  createResp : Except AwsError Unit
  ebignore : Option (String → Bool)
  gitignore : Option (String → Bool)
  baseDir : String
  tree : FsList

/-- Embeds `appver_exists`: one `describe_application_versions` call;
returns whether the response lists at least one version. -/
def appver_exists (application label : String) (resp : Except AwsError Nat) :
    List Effect × Except AwsError Bool :=
  ([Effect.describeAppVersions application label],
   resp.map (fun n => decide (0 < n)))

/-- Embeds lines 53–61 of `_add_files_to_zipfile`: the matcher used is
the one parsed from `.ebignore` if that file exists, else the one parsed
from `.gitignore` if that file exists, else a constant-false predicate. -/
def selectIgnore (ebignore gitignore : Option (String → Bool)) : String → Bool :=
  match ebignore with
  | some m => m
  | none =>
    match gitignore with
    | some m => m
    | none => fun _ => false

/-- The log record lines 53–61 of `_add_files_to_zipfile` emit while
picking the ignore matcher. -/
def loadIgnoreLogs (cfg : Nat) (ebignore gitignore : Option (String → Bool)) :
    List Effect :=
  match ebignore with
  | some _ => emitLog cfg LOG_INFO "Using .ebignore"
  | none =>
    match gitignore with
    | some _ => emitLog cfg LOG_INFO "Using .gitignore"
    | none => emitLog cfg LOG_INFO ("Couldn" ++ sq ++ "t find .ebignore or .gitignore")

/-- Embeds the `for entry in _scantree(base_dir)` loop of
`_add_files_to_zipfile`: each yielded path is sliced to its relative
path, the ignore matcher is applied to the full `entry.path`, and
non-matching entries are written to the archive under the relative
path. -/
def zipLoop (cfg : Nat) (ignoreMatches : String → Bool) (baseDir : String) :
    List String → List Effect × List String
  | [] => ([], [])
  | p :: rest =>
    let relativePath := p.drop (baseDir.length + 1)
    let (fx, es) := zipLoop cfg ignoreMatches baseDir rest
    if ignoreMatches p then
      (emitLog cfg LOG_DEBUG ("Ignoring " ++ relativePath ++ " based on .ebignore") ++ fx,
       es)
    else
      (emitLog cfg LOG_DEBUG ("Adding " ++ relativePath ++ " to zipfile") ++ fx,
       relativePath :: es)

/-- Embeds `_add_files_to_zipfile`: load the ignore rules, walk the tree,
filter and add files; returns the entry names of the archive in order. -/
def addFilesToZipfile (cfg : Nat) (ebignore gitignore : Option (String → Bool))
    (baseDir : String) (tree : FsList) : List Effect × List String :=
  let igfx := loadIgnoreLogs cfg ebignore gitignore
  let ignoreMatches := selectIgnore ebignore gitignore
  let (loopfx, entries) := zipLoop cfg ignoreMatches baseDir (scantree baseDir tree)
  (igfx ++ loopfx ++
     emitLog cfg LOG_INFO ("Created zipfile with " ++ toString entries.length ++ " items"),
   entries)

/-- Embeds the `create_zipfile` context manager: create the temporary
file, populate the zipfile, seal it (the `buildArchive` effect). -/
def create_zipfile (cfg : Nat) (ebignore gitignore : Option (String → Bool))
    (baseDir : String) (tree : FsList) : List Effect × List String :=
  let (zfx, entries) := addFilesToZipfile cfg ebignore gitignore baseDir tree
  (emitLog cfg LOG_DEBUG "Created temporary file" ++ zfx ++
     [Effect.buildArchive entries] ++ emitLog cfg LOG_DEBUG "Closed zipfile",
   entries)

/-- Embeds `upload_appver`: derive the S3 key, put the object, return the
key.  The put is attempted (and recorded) whether or not it succeeds. -/
def upload_appver (cfg : Nat) (application label s3Bucket : String)
    (resp : Except AwsError Unit) : List Effect × Except AwsError String :=
  let s3_key := application ++ "/" ++ label ++ ".zip"
  (emitLog cfg LOG_INFO ("Uploading appver to s3://" ++ s3Bucket ++ "/" ++ s3_key) ++
     [Effect.uploadObject s3Bucket s3_key],
   resp.map (fun _ => s3_key))

/-- The exact error message `create_appver` compares against:
`"Application Version %s already exists." % label`. -/
def alreadyExistsMsg (label : String) : String :=
  "Application Version " ++ label ++ " already exists."

/-- Embeds `create_appver`: issue `create_application_version`; a
`ClientError` whose message is exactly `alreadyExistsMsg label` is
re-raised under strict mode and logged as a warning otherwise; a
`ClientError` with any other message falls off the end of the `except`
block (it is swallowed and the function returns normally); a
non-`ClientError` exception propagates. -/
def create_appver (cfg : Nat) (application s3Bucket s3_key label description : String)
    (existing_appver_is_error : Bool) (resp : Except AwsError Unit) :
    List Effect × Except AwsError Unit :=
  let fx := emitLog cfg LOG_INFO "Creating application version" ++
    [Effect.createAppVersion application label description s3Bucket s3_key]
  match resp with
  | .ok _ => (fx, .ok ())
  | .error (.clientError msg) =>
    if msg = alreadyExistsMsg label then
      if existing_appver_is_error then
        (fx, .error (.clientError msg))
      else
        (fx ++ emitLog cfg LOG_WARNING
           ("The application version " ++ sq ++ label ++ sq ++
              " was created before we could upload it."),
         .ok ())
    else (fx, .ok ())
  | .error (.nonClientError msg) => (fx, .error (.nonClientError msg))

/-- How `main` terminates: normal return, a raised `ProgramError`
(carrying its message), or any other uncaught exception. -/
inductive MainResult where
  | ok
  | programError (msg : String)
  | uncaught (e : AwsError)
  deriving DecidableEq

/-- The body of `main` after `logging.basicConfig` has fixed the
configured level `cfg`: check existence, and unless the label already
exists build the archive, upload it and register it. -/
def mainWith (cfg : Nat) (args : Args) (env : Env) : List Effect × MainResult :=
  let (dfx, exres) := appver_exists args.application args.label env.describeCount
  match exres with
  | .error e => (dfx, .uncaught e)
  | .ok b =>
    if b then
      if args.existingAppverIsError then
        (dfx, .programError ("Application version " ++ sq ++ args.label ++ sq ++
           " already exists!"))
      else
        (dfx ++ emitLog cfg LOG_INFO ("Application version " ++ sq ++ args.label ++ sq ++
           " already exists."),
         .ok)
    else
      let (zfx, _entries) := create_zipfile cfg env.ebignore env.gitignore env.baseDir env.tree
      let (ufx, upres) := upload_appver cfg args.application args.label args.s3Bucket
        env.uploadResp
      match upres with
      | .error e => (dfx ++ zfx ++ ufx, .uncaught e)
      | .ok s3_key =>
        let rawfx := emitLog cfg LOG_DEBUG "Closed raw file"
        let (cfx, crres) := create_appver cfg args.application args.s3Bucket s3_key
          args.label args.description args.existingAppverIsError env.createResp
        match crres with
        | .error e => (dfx ++ zfx ++ ufx ++ rawfx ++ cfx, .uncaught e)
        | .ok _ =>
          (dfx ++ zfx ++ ufx ++ rawfx ++ cfx ++ emitLog cfg LOG_INFO "All done!", .ok)

/-- The level `logging.basicConfig(level=DEBUG if args.debug else INFO)`
configures. -/
def cfgOf (args : Args) : Nat :=
  if args.debug then LOG_DEBUG else LOG_INFO

/-- Embeds `main`: `logging.basicConfig` fixes the configured level,
then the pipeline body runs. -/
def main (args : Args) (env : Env) : List Effect × MainResult :=
  mainWith (cfgOf args) args env

/-- The outcome of one process run: the effects, the exit code, the
message printed by the `except ProgramError` handler (if any), and
whether the interpreter printed a traceback for an uncaught exception. -/
structure RunResult where
  effects : List Effect
  exitCode : Nat
  printedMessage : Option String
  stackTrace : Bool
  deriving DecidableEq

/-- Embeds the `if __name__ == "__main__"` block: run `main`; a
`ProgramError` is printed and the process exits 1 with no traceback; any
other exception is unhandled, so CPython prints a traceback and exits 1;
normal return exits 0. -/
def run (args : Args) (env : Env) : RunResult :=
  match main args env with
  | (fx, .ok) => ⟨fx, 0, none, false⟩
  | (fx, .programError msg) => ⟨fx, 1, some msg, false⟩
  | (fx, .uncaught _) => ⟨fx, 1, none, true⟩

/-- Whether an effect is a log record. -/
def Effect.isLog : Effect → Bool
  | .log _ _ => true
  | _ => false

/-- Whether an effect is the construction of the archive. -/
def Effect.isBuildArchive : Effect → Bool
  | .buildArchive _ => true
  | _ => false

/-- Whether an effect is an object-storage upload. -/
def Effect.isUpload : Effect → Bool
  | .uploadObject _ _ => true
  | _ => false

/-- Whether an effect is a `create_application_version` request. -/
def Effect.isCreate : Effect → Bool
  | .createAppVersion _ _ _ _ _ => true
  | _ => false

/-- The non-logging effects of a run, in order: archive construction and
outgoing requests. -/
def nonLogEffects (fx : List Effect) : List Effect :=
  fx.filter (fun e => !e.isLog)

/-- The files of a tree surviving the loaded ignore rules: relative
paths whose full path the selected matcher does not match. -/
def filteredFiles (ebignore gitignore : Option (String → Bool)) (baseDir : String)
    (tree : FsList) : List String :=
  (filesOfList tree).filter
    (fun r => !(selectIgnore ebignore gitignore) (baseDir ++ "/" ++ r))

/-- Lenient-mode arguments used as concrete inputs. -/
def argsA : Args :=
  ⟨"myapp", "v42", "bkt", "", false, false⟩

/-- Strict-mode (`--existing-appver-is-error`) arguments used as concrete
inputs. -/
def argsB : Args :=
  { argsA with existingAppverIsError := true }

/-- A run in which no version exists yet and every AWS call succeeds,
over an empty working directory. -/
def envFresh : Env :=
  ⟨.ok 0, .ok (), .ok (), none, none, "/base", .nil⟩

/-- A run in which the pre-flight check finds one existing version. -/
def envPre : Env :=
  { envFresh with describeCount := .ok 1 }

/-- A run in which the pre-flight check finds nothing but registration
fails with the exact already-exists `ClientError` (the benign race). -/
def envRace : Env :=
  { envFresh with createResp := .error (.clientError (alreadyExistsMsg "v42")) }

/-- Dropping a string-prefix of an append recovers the suffix: the Python
slice `(s ++ t)[len(s):]` is `t`. -/
theorem drop_length_append (s t : String) : (s ++ t).drop s.length = t := by
  apply String.ext
  rw [String.data_drop, String.data_append]
  exact List.drop_left s.data t.data

/-- The slice `entry.path[len(base) + 1 :]` recovers the path relative to
`base` when `entry.path = base ++ "/" ++ rel`. -/
theorem drop_base_slash (base rel : String) :
    (base ++ "/" ++ rel).drop (base.length + 1) = rel := by
  have h1 : base ++ "/" ++ rel = (base ++ "/") ++ rel := rfl
  have h2 : (base ++ "/").length = base.length + 1 := by
    rw [String.length_append]
    rfl
  rw [h1, ← h2, drop_length_append]

mutual
/-- The paths yielded by `_scantree` starting at `base` are exactly the
files of the tree, each prefixed with `base ++ "/"`. -/
theorem scantree_eq (base : String) (l : FsList) :
    scantree base l = (filesOfList l).map (fun r => base ++ "/" ++ r) := by
  match l with
  | .nil => simp [scantree, filesOfList]
  | .cons e rest =>
    simp [scantree, filesOfList, scanEntry_eq base e, scantree_eq base rest]

/-- Companion of `scantree_eq` for a single tree node. -/
theorem scanEntry_eq (base : String) (e : FsEntry) :
    scanEntry base e = (filesOfEntry e).map (fun r => base ++ "/" ++ r) := by
  match e with
  | .file n => simp [scanEntry, filesOfEntry]
  | .dir n cs =>
    rw [scanEntry, filesOfEntry, scantree_eq (base ++ "/" ++ n) cs, List.map_map]
    apply List.map_congr_left
    intro r _
    apply String.ext
    simp [String.data_append]
end

theorem zipLoop_map_entries (cfg : Nat) (ign : String → Bool) (base : String)
    (rs : List String) :
    (zipLoop cfg ign base (rs.map (fun r => base ++ "/" ++ r))).2 =
      rs.filter (fun r => !ign (base ++ "/" ++ r)) := by
  induction rs with
  | nil => simp [zipLoop]
  | cons r rest ih =>
    simp only [List.map_cons, zipLoop, ih, drop_base_slash, List.filter_cons]
    split
    case isTrue h => simp [h]
    case isFalse h => simp [Bool.not_eq_true] at h; simp [h]

/-- What the archive-builder loop writes when fed the output of
`_scantree`: exactly the files of the tree whose full path the matcher
rejects, as relative
paths, in traversal order. -/
theorem zipLoop_scantree (cfg : Nat) (ign : String → Bool) (base : String)
    (tree : FsList) :
    (zipLoop cfg ign base (scantree base tree)).2 =
      (filesOfList tree).filter (fun r => !ign (base ++ "/" ++ r)) := by
  rw [scantree_eq, zipLoop_map_entries]

theorem addFilesToZipfile_snd (cfg : Nat) (eb git : Option (String → Bool))
    (base : String) (tree : FsList) :
    (addFilesToZipfile cfg eb git base tree).2 = filteredFiles eb git base tree := by
  simp [addFilesToZipfile, filteredFiles, zipLoop_scantree]

theorem create_zipfile_snd (cfg : Nat) (eb git : Option (String → Bool))
    (base : String) (tree : FsList) :
    (create_zipfile cfg eb git base tree).2 = filteredFiles eb git base tree := by
  simp [create_zipfile, addFilesToZipfile_snd]

theorem nonLog_append (a b : List Effect) :
    nonLogEffects (a ++ b) = nonLogEffects a ++ nonLogEffects b := by
  simp [nonLogEffects]

theorem nonLog_emitLog (cfg lvl : Nat) (msg : String) :
    nonLogEffects (emitLog cfg lvl msg) = [] := by
  unfold emitLog nonLogEffects
  split <;> simp [Effect.isLog]

theorem nonLog_loadIgnoreLogs (cfg : Nat) (eb git : Option (String → Bool)) :
    nonLogEffects (loadIgnoreLogs cfg eb git) = [] := by
  unfold loadIgnoreLogs
  cases eb with
  | some m => exact nonLog_emitLog ..
  | none => cases git with
    | some m => exact nonLog_emitLog ..
    | none => exact nonLog_emitLog ..

theorem nonLog_zipLoop (cfg : Nat) (ign : String → Bool) (base : String)
    (l : List String) :
    nonLogEffects (zipLoop cfg ign base l).1 = [] := by
  induction l with
  | nil => simp [zipLoop, nonLogEffects]
  | cons p rest ih =>
    simp only [zipLoop]
    split <;> simp [nonLog_append, nonLog_emitLog, ih]

theorem nonLog_buildArchive (es : List String) :
    nonLogEffects [Effect.buildArchive es] = [Effect.buildArchive es] := rfl

theorem nonLog_uploadObject (bucket key : String) :
    nonLogEffects [Effect.uploadObject bucket key] = [Effect.uploadObject bucket key] := rfl

theorem nonLog_createAppVersion (application label description bucket key : String) :
    nonLogEffects [Effect.createAppVersion application label description bucket key] =
      [Effect.createAppVersion application label description bucket key] := rfl

theorem nonLog_describeAppVersions (application label : String) :
    nonLogEffects [Effect.describeAppVersions application label] =
      [Effect.describeAppVersions application label] := rfl

theorem nonLog_cons_buildArchive (es : List String) (l : List Effect) :
    nonLogEffects (Effect.buildArchive es :: l) =
      Effect.buildArchive es :: nonLogEffects l := by
  simp [nonLogEffects, Effect.isLog]

theorem nonLog_cons_uploadObject (bucket key : String) (l : List Effect) :
    nonLogEffects (Effect.uploadObject bucket key :: l) =
      Effect.uploadObject bucket key :: nonLogEffects l := by
  simp [nonLogEffects, Effect.isLog]

theorem nonLog_cons_createAppVersion (application label description bucket key : String)
    (l : List Effect) :
    nonLogEffects (Effect.createAppVersion application label description bucket key :: l) =
      Effect.createAppVersion application label description bucket key ::
        nonLogEffects l := by
  simp [nonLogEffects, Effect.isLog]

theorem nonLog_nil : nonLogEffects [] = [] := rfl

theorem nonLog_cons_describeAppVersions (application label : String) (l : List Effect) :
    nonLogEffects (Effect.describeAppVersions application label :: l) =
      Effect.describeAppVersions application label :: nonLogEffects l := by
  simp [nonLogEffects, Effect.isLog]

theorem nonLog_addFilesToZipfile (cfg : Nat) (eb git : Option (String → Bool))
    (base : String) (tree : FsList) :
    nonLogEffects (addFilesToZipfile cfg eb git base tree).1 = [] := by
  simp [addFilesToZipfile, nonLog_append, nonLog_emitLog, nonLog_loadIgnoreLogs,
    nonLog_zipLoop]

/-- The only non-log effect of `create_zipfile` is sealing the archive
with the filtered file list. -/
theorem nonLog_create_zipfile (cfg : Nat) (eb git : Option (String → Bool))
    (base : String) (tree : FsList) :
    nonLogEffects (create_zipfile cfg eb git base tree).1 =
      [Effect.buildArchive (filteredFiles eb git base tree)] := by
  simp [create_zipfile, nonLog_append, nonLog_emitLog, nonLog_addFilesToZipfile,
    nonLog_cons_buildArchive, nonLog_nil, addFilesToZipfile_snd]

/-- The only non-log effect of `upload_appver` is the S3 put at the
derived key. -/
theorem nonLog_upload_appver (cfg : Nat) (application label s3Bucket : String)
    (resp : Except AwsError Unit) :
    nonLogEffects (upload_appver cfg application label s3Bucket resp).1 =
      [Effect.uploadObject s3Bucket (application ++ "/" ++ label ++ ".zip")] := by
  simp [upload_appver, nonLog_append, nonLog_emitLog, nonLog_uploadObject]

/-- The registration outcome does not depend on the logging level. -/
theorem create_appver_snd_cfg (cfg cfg' : Nat)
    (application s3Bucket s3_key label description : String) (strict : Bool)
    (resp : Except AwsError Unit) :
    (create_appver cfg application s3Bucket s3_key label description strict resp).2 =
      (create_appver cfg' application s3Bucket s3_key label description strict resp).2 := by
  unfold create_appver
  cases resp with
  | ok _ => rfl
  | error e =>
    cases e with
    | clientError msg =>
      dsimp only
      split
      · split <;> rfl
      · rfl
    | nonClientError msg => rfl

/-- The only non-log effect of `create_appver` is the
`create_application_version` request. -/
theorem nonLog_create_appver (cfg : Nat)
    (application s3Bucket s3_key label description : String) (strict : Bool)
    (resp : Except AwsError Unit) :
    nonLogEffects (create_appver cfg application s3Bucket s3_key label description
        strict resp).1 =
      [Effect.createAppVersion application label description s3Bucket s3_key] := by
  unfold create_appver
  cases resp with
  | ok _ =>
    simp [nonLog_append, nonLog_emitLog, nonLog_createAppVersion]
  | error e =>
    cases e with
    | clientError msg =>
      dsimp only
      split
      · split <;>
          simp [nonLog_append, nonLog_emitLog, nonLog_createAppVersion,
            nonLog_cons_createAppVersion, nonLog_nil]
      · simp [nonLog_append, nonLog_emitLog, nonLog_createAppVersion]
    | nonClientError msg =>
      simp [nonLog_append, nonLog_emitLog, nonLog_createAppVersion]

theorem mem_of_mem_nonLog {e : Effect} {l : List Effect}
    (h : e ∈ nonLogEffects l) : e ∈ l :=
  List.mem_of_mem_filter h

/-- When the pre-flight check finds the label and strict mode is set,
`main` raises `ProgramError` after the single describe call, so the
process prints the message and exits 1 with no traceback. -/
theorem run_preexisting_strict (args : Args) (env : Env) (n : Nat)
    (hs : args.existingAppverIsError = true)
    (hd : env.describeCount = .ok n) (hn : 0 < n) :
    run args env =
      ⟨[Effect.describeAppVersions args.application args.label], 1,
       some ("Application version " ++ sq ++ args.label ++ sq ++ " already exists!"),
       false⟩ := by
  unfold run main mainWith appver_exists
  rw [hd, hs]
  simp [Except.map, decide_eq_true hn]

/-- When the pre-flight check finds the label and strict mode is off,
`main` logs and returns: the describe call is the only request and the
process exits 0. -/
theorem run_preexisting_lenient (args : Args) (env : Env) (n : Nat)
    (hs : args.existingAppverIsError = false)
    (hd : env.describeCount = .ok n) (hn : 0 < n) :
    run args env =
      ⟨[Effect.describeAppVersions args.application args.label] ++
         emitLog (cfgOf args) LOG_INFO
           ("Application version " ++ sq ++ args.label ++ sq ++ " already exists."),
       0, none, false⟩ := by
  unfold run main mainWith appver_exists
  rw [hd, hs]
  simp [Except.map, decide_eq_true hn]

/-- When the pre-flight check finds nothing and the upload succeeds,
`main` runs the whole pipeline; its effects and result are determined by
the registration response. -/
theorem main_fresh (args : Args) (env : Env)
    (hd : env.describeCount = .ok 0) (hu : env.uploadResp = .ok ()) :
    main args env =
      ([Effect.describeAppVersions args.application args.label] ++
         (create_zipfile (cfgOf args) env.ebignore env.gitignore env.baseDir env.tree).1 ++
         (upload_appver (cfgOf args) args.application args.label args.s3Bucket
            (.ok ())).1 ++
         emitLog (cfgOf args) LOG_DEBUG "Closed raw file" ++
         (create_appver (cfgOf args) args.application args.s3Bucket
            (args.application ++ "/" ++ args.label ++ ".zip") args.label
            args.description args.existingAppverIsError env.createResp).1 ++
         (match (create_appver (cfgOf args) args.application args.s3Bucket
              (args.application ++ "/" ++ args.label ++ ".zip") args.label
              args.description args.existingAppverIsError env.createResp).2 with
          | .ok _ => emitLog (cfgOf args) LOG_INFO "All done!"
          | .error _ => []),
       match (create_appver (cfgOf args) args.application args.s3Bucket
            (args.application ++ "/" ++ args.label ++ ".zip") args.label
            args.description args.existingAppverIsError env.createResp).2 with
       | .ok _ => MainResult.ok
       | .error e => MainResult.uncaught e) := by
  unfold main mainWith appver_exists
  rw [hd, hu]
  rcases hc : create_appver (cfgOf args) args.application args.s3Bucket
      (args.application ++ "/" ++ args.label ++ ".zip") args.label
      args.description args.existingAppverIsError env.createResp with ⟨cfx, crres⟩
  simp only [Except.map, upload_appver, hc]
  cases crres <;> simp

/-- Changing only the configured logging level changes neither the
pipeline's outcome nor its non-log effects (requests, archive contents,
storage key). -/
theorem mainWith_cfg_inv (cfg cfg' : Nat) (args : Args) (env : Env) :
    nonLogEffects (mainWith cfg args env).1 = nonLogEffects (mainWith cfg' args env).1 ∧
    (mainWith cfg args env).2 = (mainWith cfg' args env).2 := by
  unfold mainWith
  cases hdc : env.describeCount with
  | error e => simp [appver_exists, Except.map]
  | ok n =>
    simp only [appver_exists, Except.map]
    cases hb : decide (0 < n) with
    | true =>
      cases hae : args.existingAppverIsError <;>
        simp [nonLog_append, nonLog_emitLog, nonLog_cons_describeAppVersions]
    | false =>
      simp only [Bool.false_eq_true, if_false]
      rcases hup : env.uploadResp with e | u
      · simp [upload_appver, Except.map, nonLog_append, nonLog_emitLog,
          nonLog_create_zipfile, nonLog_cons_describeAppVersions,
          nonLog_cons_uploadObject, nonLog_nil]
      · simp only [upload_appver, Except.map]
        rcases hca : create_appver cfg args.application args.s3Bucket
            (args.application ++ "/" ++ args.label ++ ".zip") args.label
            args.description args.existingAppverIsError env.createResp with ⟨cfx, cr⟩
        rcases hca' : create_appver cfg' args.application args.s3Bucket
            (args.application ++ "/" ++ args.label ++ ".zip") args.label
            args.description args.existingAppverIsError env.createResp with ⟨cfx', cr'⟩
        have hcr : cr = cr' := by
          have h := create_appver_snd_cfg cfg cfg' args.application args.s3Bucket
            (args.application ++ "/" ++ args.label ++ ".zip") args.label
            args.description args.existingAppverIsError env.createResp
          rw [hca, hca'] at h
          exact h
        have hcfx : nonLogEffects cfx = nonLogEffects cfx' := by
          have h1 := nonLog_create_appver cfg args.application args.s3Bucket
            (args.application ++ "/" ++ args.label ++ ".zip") args.label
            args.description args.existingAppverIsError env.createResp
          have h2 := nonLog_create_appver cfg' args.application args.s3Bucket
            (args.application ++ "/" ++ args.label ++ ".zip") args.label
            args.description args.existingAppverIsError env.createResp
          rw [hca] at h1
          rw [hca'] at h2
          rw [h1, h2]
        subst hcr
        cases cr <;>
          simp [nonLog_append, nonLog_emitLog, nonLog_create_zipfile,
            nonLog_cons_describeAppVersions, nonLog_nil,
            nonLog_cons_uploadObject, hcfx]

/-- The process outcome is determined componentwise by the effects and
result of `main`. -/
theorem run_eq (args : Args) (env : Env) :
    run args env =
      ⟨(main args env).1,
       match (main args env).2 with
       | .ok => 0
       | _ => 1,
       match (main args env).2 with
       | .programError m => some m
       | _ => none,
       match (main args env).2 with
       | .uncaught _ => true
       | _ => false⟩ := by
  unfold run
  rcases main args env with ⟨fx, r⟩
  cases r <;> rfl

/-- The pipeline body reads every argument except `debug`, so overriding
`debug` does not change it. -/
theorem mainWith_debug (cfg : Nat) (args : Args) (env : Env) (d : Bool) :
    mainWith cfg { args with debug := d } env = mainWith cfg args env := rfl

/-- C1: for every directory tree rooted at the working directory and
every loaded ignore rule set, the sealed archive produced by the Archive
Builder contains exactly the regular files under the working directory
(recursively) whose path the ignore predicate does not match, each
stored under its path relative to the working directory; directories
themselves never appear as entries (the right-hand side enumerates
regular files only). -/
theorem C1_archive_exactly_filtered_files (cfg : Nat)
    (ebignore gitignore : Option (String → Bool)) (baseDir : String) (tree : FsList) :
    (create_zipfile cfg ebignore gitignore baseDir tree).2 =
      (filesOfList tree).filter
        (fun r => !(selectIgnore ebignore gitignore) (baseDir ++ "/" ++ r)) :=
  create_zipfile_snd cfg ebignore gitignore baseDir tree

/-- C2 (amended): with strict mode set, an idempotency conflict always
ends the process with exit code 1 — but only the pre-flight detection is
a clean message-only exit; a conflict first reported by the orchestrator
at registration time propagates as an uncaught `ClientError`, so the
interpreter prints a traceback and no `ProgramError` message. -/
theorem C2_strict_conflict_exit (args : Args) (env : Env)
    (hs : args.existingAppverIsError = true) :
    (∀ n : Nat, env.describeCount = .ok n → 0 < n →
       (run args env).exitCode = 1 ∧
       (run args env).printedMessage =
         some ("Application version " ++ sq ++ args.label ++ sq ++ " already exists!") ∧
       (run args env).stackTrace = false) ∧
    (env.describeCount = .ok 0 → env.uploadResp = .ok () →
     env.createResp = .error (.clientError (alreadyExistsMsg args.label)) →
       (run args env).exitCode = 1 ∧
       (run args env).printedMessage = none ∧
       (run args env).stackTrace = true) := by
  constructor
  · intro n hd hn
    rw [run_preexisting_strict args env n hs hd hn]
    exact ⟨rfl, rfl, rfl⟩
  · intro hd hu hc
    rw [run_eq, main_fresh args env hd hu, hc]
    simp [create_appver, hs]

theorem C2_strict_conflict_exit_witness :
    ((run argsB envPre).exitCode = 1 ∧
     (run argsB envPre).printedMessage =
       some ("Application version " ++ sq ++ "v42" ++ sq ++ " already exists!") ∧
     (run argsB envPre).stackTrace = false) ∧
    ((run argsB envRace).exitCode = 1 ∧
     (run argsB envRace).printedMessage = none ∧
     (run argsB envRace).stackTrace = true) :=
  ⟨(C2_strict_conflict_exit argsB envPre rfl).1 1 rfl (by decide),
   (C2_strict_conflict_exit argsB envRace rfl).2 rfl rfl rfl⟩

/-- C2 as stated is false at a registration-time conflict: with strict
mode set, a pre-flight miss and the orchestrator reporting the exact
already-exists error at registration time, the process does exit 1 but
prints no message and does print a stack trace (the `ClientError` is
re-raised and `__main__` catches only `ProgramError`). -/
theorem C2_race_prints_traceback :
    (run argsB envRace).exitCode = 1 ∧
    (run argsB envRace).printedMessage = none ∧
    (run argsB envRace).stackTrace = true := by
  refine ⟨by decide, by decide, by decide⟩

/-- C3 (amended): for every candidate file visited during traversal, the
value tested against the ignore predicate is the full
`entry.path` — the working directory joined with the relative path, not
the relative path itself; files whose full path matches are skipped, and
non-matching files are added to the archive under their relative path as
the entry name. -/
theorem C3_ignore_tested_on_full_path (cfg : Nat) (ign : String → Bool)
    (baseDir : String) (tree : FsList) :
    (zipLoop cfg ign baseDir (scantree baseDir tree)).2 =
      (filesOfList tree).filter (fun r => !ign (baseDir ++ "/" ++ r)) :=
  zipLoop_scantree cfg ign baseDir tree

/-- C3 as stated is false: with working directory `/base`, a single file
`a.txt`, and a loaded ignore predicate matching exactly the string
`a.txt` (the path of the file relative to the working directory), the file is
nevertheless added to the archive, because the code tests the absolute
`entry.path` (`/base/a.txt`) against the predicate. -/
theorem C3_relative_match_not_skipped :
    (addFilesToZipfile LOG_INFO (some (fun p => p == "a.txt")) none "/base"
       (.cons (.file "a.txt") .nil)).2 = ["a.txt"] ∧
    ((fun p : String => p == "a.txt") "a.txt" = true) ∧
    ((fun p : String => p == "a.txt") "/base/a.txt" = false) := by
  refine ⟨by decide, by decide, by decide⟩

/-- C4: the code violates the claim. The `except` block of `create_appver`
re-raises only the exact already-exists message under strict mode; a
`ClientError` carrying any other message falls off the end of the block,
so the error is swallowed and `create_appver` returns normally — in both
lenient and strict mode — instead of propagating it. -/
theorem C4_other_client_error_swallowed :
    (create_appver LOG_INFO "myapp" "bkt" "myapp/v42.zip" "v42" "" false
       (.error (.clientError "The specified bucket does not exist"))).2 =
      Except.ok () ∧
    (create_appver LOG_INFO "myapp" "bkt" "myapp/v42.zip" "v42" "" true
       (.error (.clientError "The specified bucket does not exist"))).2 =
      Except.ok () :=
  ⟨rfl, rfl⟩

/-- C5: when the pre-flight existence check finds a version with the
requested label and strict mode is off, the pipeline performs no archive
construction, no upload and no registration, and exits with code 0; in
particular a second run of the full pipeline with the same
application/label is a no-op. -/
theorem C5_preexisting_label_noop (args : Args) (env : Env) (n : Nat)
    (hs : args.existingAppverIsError = false)
    (hd : env.describeCount = .ok n) (hn : 0 < n) :
    (run args env).exitCode = 0 ∧
    (run args env).effects.all
      (fun e => !e.isBuildArchive && !e.isUpload && !e.isCreate) = true := by
  rw [run_preexisting_lenient args env n hs hd hn]
  refine ⟨rfl, ?_⟩
  simp only [List.all_append, emitLog]
  split <;> rfl

theorem C5_preexisting_label_noop_witness :
    (run argsA envPre).exitCode = 0 ∧
    (run argsA envPre).effects.all
      (fun e => !e.isBuildArchive && !e.isUpload && !e.isCreate) = true :=
  C5_preexisting_label_noop argsA envPre 1 rfl rfl (by decide)

/-- C6: when a version with the same label pre-exists and
`--existing-appver-is-error` is set, the process exits with code 1 (with
the `ProgramError` message printed and no traceback) and performs no
upload: no archive is built and no object-storage call is made. -/
theorem C6_strict_preexisting_no_upload (args : Args) (env : Env) (n : Nat)
    (hs : args.existingAppverIsError = true)
    (hd : env.describeCount = .ok n) (hn : 0 < n) :
    (run args env).exitCode = 1 ∧
    (run args env).printedMessage =
      some ("Application version " ++ sq ++ args.label ++ sq ++ " already exists!") ∧
    (run args env).stackTrace = false ∧
    (run args env).effects.all (fun e => !e.isBuildArchive && !e.isUpload) = true := by
  rw [run_preexisting_strict args env n hs hd hn]
  exact ⟨rfl, rfl, rfl, rfl⟩

theorem C6_strict_preexisting_no_upload_witness :
    (run argsB envPre).exitCode = 1 ∧
    (run argsB envPre).printedMessage =
      some ("Application version " ++ sq ++ "v42" ++ sq ++ " already exists!") ∧
    (run argsB envPre).stackTrace = false ∧
    (run argsB envPre).effects.all (fun e => !e.isBuildArchive && !e.isUpload) = true :=
  C6_strict_preexisting_no_upload argsB envPre 1 rfl rfl (by decide)

/-- C7: for every application name and label, the storage key computed by
the upload step is exactly `application ++ "/" ++ label ++ ".zip"`
(no randomness — `upload_appver` is a pure function of its arguments),
the S3 put uses that key, and on success the key is returned for the
registration step; for application `myapp` and label `v42` the key is
exactly `myapp/v42.zip`. -/
theorem C7_storage_key_deterministic :
    (∀ cfg : Nat, ∀ application label s3Bucket : String,
       (upload_appver cfg application label s3Bucket (.ok ())).2 =
         Except.ok (application ++ "/" ++ label ++ ".zip") ∧
       nonLogEffects (upload_appver cfg application label s3Bucket (.ok ())).1 =
         [Effect.uploadObject s3Bucket (application ++ "/" ++ label ++ ".zip")]) ∧
    (upload_appver LOG_INFO "myapp" "v42" "bkt" (.ok ())).2 = Except.ok "myapp/v42.zip" := by
  refine ⟨fun cfg application label s3Bucket => ⟨rfl, ?_⟩, rfl⟩
  exact nonLog_upload_appver cfg application label s3Bucket (.ok ())

/-- C8: the ignore rule set is the one loaded from `.ebignore` when that
file exists in the working directory root; otherwise from `.gitignore`
when it exists; when neither exists the predicate is constantly false.
In particular, when both files exist only the `.ebignore` rules apply. -/
theorem C8_ignore_file_precedence :
    (∀ ebm gitm : String → Bool, ∀ p, selectIgnore (some ebm) (some gitm) p = ebm p) ∧
    (∀ ebm : String → Bool, ∀ p, selectIgnore (some ebm) none p = ebm p) ∧
    (∀ gitm : String → Bool, ∀ p, selectIgnore none (some gitm) p = gitm p) ∧
    (∀ p, selectIgnore none none p = false) :=
  ⟨fun _ _ _ => rfl, fun _ _ => rfl, fun _ _ => rfl, fun _ => rfl⟩

/-- C9: a working directory that is empty or whose files are all matched
by the loaded ignore predicate yields a valid empty archive (zero
entries) without error, and the pipeline proceeds through a successful
upload and registration and exits with code 0. -/
theorem C9_empty_archive_success (args : Args) (env : Env)
    (hd : env.describeCount = .ok 0) (hu : env.uploadResp = .ok ())
    (hc : env.createResp = .ok ())
    (hign : ∀ r ∈ filesOfList env.tree,
       selectIgnore env.ebignore env.gitignore (env.baseDir ++ "/" ++ r) = true) :
    (run args env).exitCode = 0 ∧
    Effect.buildArchive [] ∈ (run args env).effects ∧
    Effect.uploadObject args.s3Bucket
      (args.application ++ "/" ++ args.label ++ ".zip") ∈ (run args env).effects ∧
    Effect.createAppVersion args.application args.label args.description
      args.s3Bucket (args.application ++ "/" ++ args.label ++ ".zip") ∈
      (run args env).effects := by
  have hff : filteredFiles env.ebignore env.gitignore env.baseDir env.tree = [] := by
    unfold filteredFiles
    rw [List.filter_eq_nil_iff]
    intro r hr
    simp [hign r hr]
  have hb : Effect.buildArchive [] ∈
      (create_zipfile (cfgOf args) env.ebignore env.gitignore env.baseDir env.tree).1 := by
    apply mem_of_mem_nonLog
    rw [nonLog_create_zipfile, hff]
    exact List.mem_singleton.mpr rfl
  have hbu : Effect.uploadObject args.s3Bucket
      (args.application ++ "/" ++ args.label ++ ".zip") ∈
      (upload_appver (cfgOf args) args.application args.label args.s3Bucket
        (.ok ())).1 := by
    apply mem_of_mem_nonLog
    rw [nonLog_upload_appver]
    exact List.mem_singleton.mpr rfl
  rw [run_eq, main_fresh args env hd hu, hc]
  simp only [create_appver, List.mem_append]
  refine ⟨trivial, ?_, ?_, ?_⟩
  · left; left; left; left; right
    exact hb
  · left; left; left; right
    exact hbu
  · left; right; right
    exact List.mem_singleton.mpr rfl

theorem C9_empty_archive_success_witness :
    (run argsA envFresh).exitCode = 0 ∧
    Effect.buildArchive [] ∈ (run argsA envFresh).effects ∧
    Effect.uploadObject "bkt" ("myapp" ++ "/" ++ "v42" ++ ".zip") ∈
      (run argsA envFresh).effects ∧
    Effect.createAppVersion "myapp" "v42" "" "bkt" ("myapp" ++ "/" ++ "v42" ++ ".zip") ∈
      (run argsA envFresh).effects :=
  C9_empty_archive_success argsA envFresh rfl rfl rfl
    (by intro r hr; simp [envFresh, filesOfList] at hr)

/-- C10: two runs differing only in `--debug` (same directory contents,
same other arguments, same AWS responses) perform the same non-log
effects — the same archive construction, the same storage key, the same
upload and registration requests — and end with the same exit code,
printed message and traceback behaviour; `--debug` changes only which
log records are emitted. -/
theorem C10_debug_flag_logging_only (args : Args) (env : Env) :
    nonLogEffects (run { args with debug := true } env).effects =
      nonLogEffects (run { args with debug := false } env).effects ∧
    (run { args with debug := true } env).exitCode =
      (run { args with debug := false } env).exitCode ∧
    (run { args with debug := true } env).printedMessage =
      (run { args with debug := false } env).printedMessage ∧
    (run { args with debug := true } env).stackTrace =
      (run { args with debug := false } env).stackTrace := by
  have h1 : main { args with debug := true } env = mainWith LOG_DEBUG args env := by
    show mainWith (cfgOf { args with debug := true }) { args with debug := true } env = _
    rw [mainWith_debug]
    rfl
  have h2 : main { args with debug := false } env = mainWith LOG_INFO args env := by
    show mainWith (cfgOf { args with debug := false }) { args with debug := false } env = _
    rw [mainWith_debug]
    rfl
  have h := mainWith_cfg_inv LOG_DEBUG LOG_INFO args env
  rw [run_eq, run_eq, h1, h2]
  exact ⟨h.1, by rw [h.2], by rw [h.2], by rw [h.2]⟩

end EbAppver
